import Mathlib

/-!
Verification of the git-publish orchestration engine against its source.

Paths are modelled as lists of components. Each definition carries a doc
comment naming the source file and lines it embeds.
-/

namespace GitPublish

/-- Filesystem paths, as lists of path components from the root. -/
abbrev Path := List String

/-! ## Package-manager detection (src/utils/detect-package-manager.ts) -/

/-- Result enumeration of src/utils/detect-package-manager.ts (type
PackageManager = npm | yarn | pnpm | bun). -/
inductive PackageManager
  | npm
  | yarn
  | pnpm
  | bun
deriving DecidableEq, Repr

/-- Directories visited by findUp (dependency find-up-simple, as called in
src/utils/detect-package-manager.ts lines 7-29): the working directory
`stopAt ++ rel` first, then each ancestor, down to and including `stopAt`.
`rel` is the relative path from the repository root to the working
directory. -/
def searchDirs (stopAt rel : Path) : List Path :=
  ((List.range (rel.length + 1)).reverse).map (fun k => stopAt ++ rel.take k)

/-- findUp of find-up-simple over an abstract directory-listing oracle
`fs` (`fs d n` holds when directory `d` has an entry named `n`): first
directory in the ancestor chain that has the entry, bounded by `stopAt`. -/
def findUp (fs : Path → String → Bool) (name : String) (stopAt rel : Path) : Option Path :=
  (searchDirs stopAt rel).find? (fun d => fs d name)

/-- detectPackageManager, src/utils/detect-package-manager.ts lines 3-32:
pnpm-lock.yaml first, then yarn.lock, then bun.lockb or bun.lock, each
searched upward bounded by the repository root; npm when none is found. -/
def detectPackageManager (fs : Path → String → Bool) (stopAt rel : Path) : PackageManager :=
  if (findUp fs "pnpm-lock.yaml" stopAt rel).isSome then .pnpm
  else if (findUp fs "yarn.lock" stopAt rel).isSome then .yarn
  else if (findUp fs "bun.lockb" stopAt rel).isSome || (findUp fs "bun.lock" stopAt rel).isSome then .bun
  else .npm

theorem mem_searchDirs {stopAt rel d : Path} (h : d ∈ searchDirs stopAt rel) :
    stopAt <+: d ∧ d <+: stopAt ++ rel := by
  unfold searchDirs at h
  rw [List.mem_map] at h
  obtain ⟨k, _, hk⟩ := h
  subst hk
  constructor
  · exact List.prefix_append stopAt (rel.take k)
  · obtain ⟨t, ht⟩ := List.take_prefix k rel
    exact ⟨t, by rw [List.append_assoc, ht]⟩

theorem findUp_isSome_iff (fs : Path → String → Bool) (name : String) (stopAt rel : Path) :
    (findUp fs name stopAt rel).isSome = true ↔ ∃ d ∈ searchDirs stopAt rel, fs d name := by
  simp [findUp, List.find?_isSome]

/-- Marker `name` is found somewhere in the bounded ancestor chain. -/
def markerFound (fs : Path → String → Bool) (name : String) (stopAt rel : Path) : Prop :=
  ∃ d ∈ searchDirs stopAt rel, fs d name

/-- C8: package-manager detection searches upward from the working
directory, bounded by the repository root (every visited directory lies
between the two), tries pnpm-lock.yaml, then yarn.lock, then
bun.lockb/bun.lock in that priority order, and returns npm exactly when no
lockfile marker is found anywhere in the bounded chain. -/
theorem detect_package_manager_spec (fs : Path → String → Bool) (stopAt rel : Path) :
    (∀ d ∈ searchDirs stopAt rel, stopAt <+: d ∧ d <+: stopAt ++ rel)
    ∧ (detectPackageManager fs stopAt rel = .pnpm ↔ markerFound fs "pnpm-lock.yaml" stopAt rel)
    ∧ (detectPackageManager fs stopAt rel = .yarn ↔
        ¬ markerFound fs "pnpm-lock.yaml" stopAt rel ∧ markerFound fs "yarn.lock" stopAt rel)
    ∧ (detectPackageManager fs stopAt rel = .bun ↔
        ¬ markerFound fs "pnpm-lock.yaml" stopAt rel ∧ ¬ markerFound fs "yarn.lock" stopAt rel
        ∧ (markerFound fs "bun.lockb" stopAt rel ∨ markerFound fs "bun.lock" stopAt rel))
    ∧ (detectPackageManager fs stopAt rel = .npm ↔
        ¬ markerFound fs "pnpm-lock.yaml" stopAt rel ∧ ¬ markerFound fs "yarn.lock" stopAt rel
        ∧ ¬ markerFound fs "bun.lockb" stopAt rel ∧ ¬ markerFound fs "bun.lock" stopAt rel) := by
  refine ⟨fun d hd => mem_searchDirs hd, ?_, ?_, ?_, ?_⟩ <;>
    · unfold detectPackageManager markerFound
      by_cases h1 : (findUp fs "pnpm-lock.yaml" stopAt rel).isSome = true <;>
        by_cases h2 : (findUp fs "yarn.lock" stopAt rel).isSome = true <;>
          by_cases h3 : (findUp fs "bun.lockb" stopAt rel).isSome = true <;>
            by_cases h4 : (findUp fs "bun.lock" stopAt rel).isSome = true <;>
              simp_all [← findUp_isSome_iff]

/-! ## Publish-branch derivation (src/index.ts lines 88-95) -/

/-- Default branch name, src/index.ts lines 90-94: npm/ prefix on the
current branch or tag name, with a dash and the manifest package name
appended when the working directory is a proper subdirectory of the
repository root (gitSubdirectory nonempty). -/
def defaultBranchName (currentBranch gitSubdirectory pkgName : String) : String :=
  "npm/" ++ currentBranch ++ (if gitSubdirectory = "" then "" else "-" ++ pkgName)

/-- derivation of publishBranch, src/index.ts lines 88-95: the branch flag
when it is given and truthy (JavaScript `if (!publishBranch)` treats the
empty string as absent), the derived default otherwise. -/
def derivePublishBranch (branchFlag : Option String)
    (currentBranch gitSubdirectory pkgName : String) : String :=
  match branchFlag with
  | some b => if b = "" then defaultBranchName currentBranch gitSubdirectory pkgName else b
  | none => defaultBranchName currentBranch gitSubdirectory pkgName

/-- C7 counterexample: an explicit branch flag does not always bypass the
derivation — a provided empty-string flag value is falsy in JavaScript, so
the derived default is used instead of the flag value. -/
theorem derive_branch_empty_flag_cex :
    derivePublishBranch (some "") "main" "" "pkg" = "npm/main"
    ∧ derivePublishBranch (some "") "main" "" "pkg" ≠ "" := by
  constructor <;> decide

/-- C7 amended: with no branch flag the target branch is npm/ followed by
the current branch-or-tag name, suffixed with a dash and the package name
exactly when the working directory is a proper subdirectory of the
repository root (develop with "@org/test-pkg" in a subdirectory gives
"npm/develop-@org/test-pkg"); a nonempty explicit branch flag bypasses the
derivation, while an empty flag value falls back to it. -/
theorem derive_branch_spec (b currentBranch gitSubdirectory pkgName : String) :
    (b ≠ "" → derivePublishBranch (some b) currentBranch gitSubdirectory pkgName = b)
    ∧ derivePublishBranch none currentBranch gitSubdirectory pkgName
        = "npm/" ++ currentBranch ++ (if gitSubdirectory = "" then "" else "-" ++ pkgName)
    ∧ (gitSubdirectory ≠ "" →
        derivePublishBranch none currentBranch gitSubdirectory pkgName
          = "npm/" ++ currentBranch ++ "-" ++ pkgName)
    ∧ derivePublishBranch none "develop" "packages/test-pkg" "@org/test-pkg"
        = "npm/develop-@org/test-pkg" := by
  refine ⟨fun hb => ?_, rfl, fun hs => ?_, by decide⟩
  · simp [derivePublishBranch, hb]
  · simp [derivePublishBranch, defaultBranchName, hs, String.append_assoc]

/-- C7 amended witness at concrete inputs. -/
theorem derive_branch_spec_witness :
    derivePublishBranch (some "custom") "develop" "packages/test-pkg" "@org/test-pkg" = "custom"
    ∧ derivePublishBranch none "develop" "packages/test-pkg" "@org/test-pkg"
        = "npm/develop-@org/test-pkg" :=
  ⟨(derive_branch_spec "custom" "develop" "packages/test-pkg" "@org/test-pkg").1 (by decide),
   (derive_branch_spec "custom" "develop" "packages/test-pkg" "@org/test-pkg").2.2.2⟩

/-! ## Tarball location after pack (src/utils/pack-package.ts lines 113-121) -/

/-- File name ends in the archive extension .tgz: embedding of the
JavaScript check file.endsWith in src/utils/pack-package.ts line 115,
stated on the underlying character lists so that it evaluates. -/
def hasTgzExt (f : String) : Bool := List.isSuffixOf ".tgz".data f.data

/-- Tarball discovery, src/utils/pack-package.ts lines 113-121: readdir of
the pack destination directory, take the first entry ending in .tgz; throw
"No tarball found after pack" when there is none. -/
def findTarball (files : List String) : Except String String :=
  match files.find? (fun f => hasTgzExt f) with
  | some t => .ok t
  | none => .error "No tarball found after pack"

/-- C5 counterexample: with two .tgz entries in the destination directory
the code does not fail — it accepts the first match, so more than one
match is not a fatal error. -/
theorem find_tarball_two_matches_cex :
    (["a.tgz", "b.tgz"].filter (fun f => hasTgzExt f)).length = 2
    ∧ findTarball ["a.tgz", "b.tgz"] = .ok "a.tgz" :=
  ⟨by decide, by rfl⟩

/-- C5 amended: the tarball is located by scanning the destination
directory for entries with the .tgz extension; zero matches is a fatal
error, and when one or more entries match, the first match in
directory-listing order is accepted without any ambiguity error. -/
theorem find_tarball_spec (files : List String) :
    findTarball files
      = match (files.filter (fun f => hasTgzExt f)).head? with
        | some t => .ok t
        | none => .error "No tarball found after pack" := by
  unfold findTarball
  induction files with
  | nil => rfl
  | cons f fs ih =>
    by_cases h : hasTgzExt f = true
    · simp [List.find?_cons, List.filter_cons, h]
    · simp only [List.find?_cons, List.filter_cons, h]
      simp only [Bool.false_eq_true, if_false, cond_false]
      exact ih

/-! ## Branch resolution, commit and push (src/index.ts lines 144-165, 255-282, 288-305) -/

/-- Outcome of the branch-resolution state machine, src/index.ts lines
144-157: orphan (fresh branch with no history) or repoint (HEAD repointed
to the fetched existing branch). -/
inductive BranchMode
  | orphan
  | repoint
deriving DecidableEq, Repr

/-- Content of one commit of the publish branch: file path to file bytes.
A remote branch state is a list of trees, newest commit first. -/
abbrev Tree := List (String × String)

/-- Branch resolution, src/index.ts lines 144-157: fresh forces orphan;
otherwise a shallow fetch of the target branch decides — fetch failure
(branch absent on the remote, modelled as none) falls back to orphan,
success repoints. -/
def resolveBranchMode (fresh : Bool) (remoteBranch : Option (List Tree)) : BranchMode :=
  if fresh then .orphan
  else match remoteBranch with
    | some _ => .repoint
    | none => .orphan

/-- History the publish worktree starts from after checkout, src/index.ts
lines 159-165: the fetched branch history in repoint mode, nothing in
orphan mode. -/
def fetchedBase (fresh : Bool) (remoteBranch : Option (List Tree)) : List Tree :=
  match resolveBranchMode fresh remoteBranch, remoteBranch with
  | .repoint, some h => h
  | _, _ => []

/-- Argument list of the push invocation, src/index.ts lines 296-302:
force exactly when the fresh flag is set, hooks always bypassed. -/
def pushArgs (fresh : Bool) (remoteName publishBranch : String) : List String :=
  ["push"] ++ (if fresh then ["--force"] else [])
    ++ ["--no-verify", remoteName, "HEAD:" ++ publishBranch]

/-- Result of the commit-and-push stages of one mutating publish run. -/
structure Outcome where
  remoteAfter : List Tree
  committed : Bool
  warned : Bool
  forced : Bool
deriving DecidableEq, Repr

/-- Commit and push semantics, src/index.ts lines 220-305, on the abstract
branch state. After checkout the index was cleared and all files deleted
(lines 167-179), so the worktree holds exactly the packed tree. The commit
task stages everything (git add -A), errors when the staged file list is
empty (line 236), then queries tracked status against HEAD: empty status —
possible only when HEAD is the fetched tip with an identical tree — skips
the commit with a warning (lines 255-257); otherwise one commit is added
on top. The push sends HEAD to the target branch (force exactly when
fresh), which makes the branch equal the worktree history. -/
def runPublish (fresh : Bool) (remoteBranch : Option (List Tree)) (packed : Tree) :
    Except String Outcome :=
  let base := fetchedBase fresh remoteBranch
  if packed = [] then .error "No publish files found"
  else
    let statusEmpty : Bool := base.head? == some packed
    let history := if statusEmpty then base else packed :: base
    .ok { remoteAfter := history, committed := !statusEmpty
          warned := statusEmpty, forced := fresh }

theorem fetchedBase_of_fresh (remoteBranch : Option (List Tree)) :
    fetchedBase true remoteBranch = [] := by
  unfold fetchedBase resolveBranchMode
  cases remoteBranch <;> rfl

theorem fetchedBase_of_existing (h : List Tree) :
    fetchedBase false (some h) = h := rfl

theorem runPublish_eq (fresh : Bool) (remoteBranch : Option (List Tree))
    (packed : Tree) (hne : packed ≠ []) :
    runPublish fresh remoteBranch packed = .ok
      { remoteAfter :=
          if (fetchedBase fresh remoteBranch).head? == some packed
          then fetchedBase fresh remoteBranch
          else packed :: fetchedBase fresh remoteBranch
        committed := !((fetchedBase fresh remoteBranch).head? == some packed)
        warned := ((fetchedBase fresh remoteBranch).head? == some packed)
        forced := fresh } := by
  unfold runPublish
  simp only [hne, if_false]

/-- C2: in every publish run that pushes, the fresh flag yields a remote
branch with exactly one commit; without the fresh flag, a previously
existing branch gains exactly one commit when the packed content differs
from its tip, and is pushed entirely unchanged when the content is
identical to the tip. -/
theorem publish_commit_counts (fresh : Bool) (remoteBranch : Option (List Tree))
    (packed : Tree) (out : Outcome)
    (hrun : runPublish fresh remoteBranch packed = .ok out) :
    (fresh = true → out.remoteAfter.length = 1)
    ∧ (∀ h, fresh = false → remoteBranch = some h →
        (some packed ≠ h.head? → out.remoteAfter.length = h.length + 1)
        ∧ (some packed = h.head? → out.remoteAfter = h)) := by
  have hp : packed ≠ [] := by
    intro hp
    rw [hp] at hrun
    unfold runPublish at hrun
    simp at hrun
  have hout := hrun.symm.trans (runPublish_eq fresh remoteBranch packed hp)
  rw [Except.ok.injEq] at hout
  constructor
  · intro hf
    subst hf
    rw [hout, fetchedBase_of_fresh]
    rfl
  · intro h hf hb
    subst hf hb
    rw [hout, fetchedBase_of_existing]
    constructor
    · intro hne
      have hs : (h.head? == some packed) = false := by
        rw [beq_eq_false_iff_ne]
        intro he
        exact hne he.symm
      simp [hs]
    · intro heq
      have hs : (h.head? == some packed) = true := by
        rw [beq_iff_eq]
        exact heq.symm
      simp [hs]

/-- C2 witness: a fresh publish over any prior state ends with one commit,
and a non-fresh republish of changed content over a one-commit branch ends
with two. -/
theorem publish_commit_counts_witness :
    (Outcome.mk [[("a", "2")]] true false true).remoteAfter.length = 1
    ∧ (Outcome.mk [[("a", "2")], [("a", "1")]] true false false).remoteAfter.length = 1 + 1 := by
  constructor
  · exact (publish_commit_counts true (some [[("a", "1")]]) [("a", "2")] _ (by rfl)).1 rfl
  · exact ((publish_commit_counts false (some [[("a", "1")]]) [("a", "2")] _ (by rfl)).2
      [[("a", "1")]] rfl rfl).1 (by decide)

/-- C3: whenever the packed output is nonempty the run succeeds; an empty
tracked-status query (the packed tree is identical to the fetched tip, so
necessarily a repoint run) skips the commit and emits a warning while the
push still executes, leaving the remote branch at the unchanged prior
head; a nonempty status creates exactly one new commit before the push. -/
theorem publish_noop_skips_commit (fresh : Bool) (remoteBranch : Option (List Tree))
    (packed : Tree) (hne : packed ≠ []) :
    ∃ out, runPublish fresh remoteBranch packed = .ok out
      ∧ (out.warned = true ↔ out.committed = false)
      ∧ (out.warned = true →
          resolveBranchMode fresh remoteBranch = .repoint
          ∧ out.remoteAfter = fetchedBase fresh remoteBranch
          ∧ out.remoteAfter.head? = (fetchedBase fresh remoteBranch).head?)
      ∧ (out.warned = false →
          out.committed = true
          ∧ out.remoteAfter = packed :: fetchedBase fresh remoteBranch) := by
  by_cases hs : ((fetchedBase fresh remoteBranch).head? == some packed) = true
  · refine ⟨_, runPublish_eq fresh remoteBranch packed hne, by simp [hs], fun _ => ?_, by simp [hs]⟩
    refine ⟨?_, by simp [hs], by simp [hs]⟩
    rw [beq_iff_eq] at hs
    rcases hmode : resolveBranchMode fresh remoteBranch with _ | _
    · have hbase : fetchedBase fresh remoteBranch = [] := by
        unfold fetchedBase
        rw [hmode]
      exact absurd (hbase ▸ hs) (by simp)
    · rfl
  · exact ⟨_, runPublish_eq fresh remoteBranch packed hne, by simp [hs],
      by simp [hs], fun _ => ⟨by simp [hs], by simp [hs]⟩⟩

/-- C3 witness: republishing identical content over an existing branch
warns, skips the commit, and pushes the unchanged prior head. -/
theorem publish_noop_skips_commit_witness :
    ∃ out, runPublish false (some [[("a", "1")]]) [("a", "1")] = .ok out
      ∧ (out.warned = true ↔ out.committed = false)
      ∧ (out.warned = true →
          resolveBranchMode false (some [[("a", "1")]]) = .repoint
          ∧ out.remoteAfter = fetchedBase false (some [[("a", "1")]])
          ∧ out.remoteAfter.head? = (fetchedBase false (some [[("a", "1")]])).head?)
      ∧ (out.warned = false →
          out.committed = true
          ∧ out.remoteAfter = [("a", "1")] :: fetchedBase false (some [[("a", "1")]])) :=
  publish_noop_skips_commit false (some [[("a", "1")]]) [("a", "1")] (by decide)

/-- C4 counterexample: a run whose branch-resolution outcome is orphan
because the remote branch does not exist (fresh flag not set) pushes
without the force option, so force is not equivalent to the orphan
outcome. -/
theorem push_force_orphan_cex :
    resolveBranchMode false none = .orphan
    ∧ "--force" ∉ pushArgs false "origin" "npm/main" := by
  constructor
  · rfl
  · decide

/-- C4 amended: the push always bypasses push hooks and carries the force
option exactly when the fresh flag is set; repoint runs never force, and
every fresh run is an orphan run (but an orphan run caused by a missing
remote branch pushes without force). -/
theorem push_force_iff_fresh (fresh : Bool) (remoteName publishBranch : String)
    (remoteBranch : Option (List Tree)) (hr : remoteName ≠ "--force") :
    ("--force" ∈ pushArgs fresh remoteName publishBranch ↔ fresh = true)
    ∧ "--no-verify" ∈ pushArgs fresh remoteName publishBranch
    ∧ (resolveBranchMode fresh remoteBranch = .repoint →
        "--force" ∉ pushArgs fresh remoteName publishBranch)
    ∧ (fresh = true → resolveBranchMode fresh remoteBranch = .orphan) := by
  have hhead : ("HEAD:" ++ publishBranch) ≠ "--force" := by
    intro h
    have hd : ("HEAD:" ++ publishBranch).data = "--force".data := by rw [h]
    rw [String.data_append] at hd
    rw [show "HEAD:".data = ['H', 'E', 'A', 'D', ':'] from rfl] at hd
    rw [show "--force".data = ['-', '-', 'f', 'o', 'r', 'c', 'e'] from rfl] at hd
    simp only [List.cons_append, List.cons.injEq] at hd
    exact absurd hd.1 (by decide)
  have hforce : "--force" ∈ pushArgs fresh remoteName publishBranch ↔ fresh = true := by
    cases fresh
    · rw [show pushArgs false remoteName publishBranch
        = ["push", "--no-verify", remoteName, "HEAD:" ++ publishBranch] from rfl]
      simp only [List.mem_cons, List.not_mem_nil, or_false, Bool.false_eq_true, iff_false]
      rintro (h | h | h | h)
      · exact absurd h (by decide)
      · exact absurd h (by decide)
      · exact hr h.symm
      · exact hhead h.symm
    · rw [show pushArgs true remoteName publishBranch
        = ["push", "--force", "--no-verify", remoteName, "HEAD:" ++ publishBranch] from rfl]
      simp
  refine ⟨hforce, ?_, fun hmode => ?_, fun hf => ?_⟩
  · cases fresh
    · rw [show pushArgs false remoteName publishBranch
        = ["push", "--no-verify", remoteName, "HEAD:" ++ publishBranch] from rfl]
      simp
    · rw [show pushArgs true remoteName publishBranch
        = ["push", "--force", "--no-verify", remoteName, "HEAD:" ++ publishBranch] from rfl]
      simp
  · intro hmem
    have hf := hforce.mp hmem
    rw [hf] at hmode
    simp [resolveBranchMode] at hmode
  · rw [hf]
    rfl

/-- C4 amended witness: concrete non-fresh repoint run pushes without
force while carrying the hook bypass, and a fresh run is orphan. -/
theorem push_force_iff_fresh_witness :
    ("--force" ∈ pushArgs false "origin" "npm/dev" ↔ false = true)
    ∧ "--no-verify" ∈ pushArgs false "origin" "npm/dev"
    ∧ (resolveBranchMode false (some [[("a", "1")]]) = .repoint →
        "--force" ∉ pushArgs false "origin" "npm/dev")
    ∧ (false = true → resolveBranchMode false (some [[("a", "1")]]) = .orphan) :=
  push_force_iff_fresh false "origin" "npm/dev" (some [[("a", "1")]]) (by decide)

/-! ## Orchestration effect model (src/index.ts lines 61-352,
src/utils/git.ts lines 8-20) -/

/-- Observable effects of one publish run: read-only probes, filesystem
mutations under a given directory subtree, and remote pushes. -/
inductive Eff
  | probe (name : String)
  | fsWrite (root : Path)
  | fsRemove (root : Path)
  | remotePush (force : Bool)
deriving DecidableEq, Repr

/-- Effect mutates local or remote state (anything except a probe). -/
def Eff.isMutation : Eff → Bool
  | .probe _ => false
  | _ => true

/-- Filesystem layout of one run: the system temporary directory, the
repository root, the relative path from the root to the working directory
(empty when publishing from the root), and the unique per-run name built
from wall-clock time and process id (src/index.ts lines 106-108). -/
structure Layout where
  tmpRoot : Path
  gitRoot : Path
  subdir : Path
  runId : String
deriving DecidableEq, Repr

/-- Worktree path, src/index.ts line 107: under the temporary directory. -/
def Layout.worktreePath (l : Layout) : Path := l.tmpRoot ++ [l.runId]

/-- Pack destination directory, src/index.ts line 108. -/
def Layout.packDest (l : Layout) : Path := l.tmpRoot ++ [l.runId ++ "-pack"]

/-- Git metadata directory of the user's repository: refs, objects, index
and worktree bookkeeping all live under it. -/
def Layout.gitDir (l : Layout) : Path := l.gitRoot ++ [".git"]

/-- Startup environment facts probed by the preflight checks. -/
structure Env where
  isRepo : Bool
  dirtyTree : Bool
  manifestFound : Bool
  privatePkg : Bool
  remoteFound : Bool
deriving DecidableEq, Repr

/-- CLI flags, src/index.ts lines 26-55. -/
structure Flags where
  branchFlag : Option String
  fresh : Bool
  dry : Bool
  force : Bool
deriving DecidableEq, Repr

/-- One publish invocation: environment, flags, repository facts and the
outcomes of the external tools it calls. hookWrites are the relative
paths the pack lifecycle hooks write, resolved against the working
directory of the spawned pack command. -/
structure Input where
  env : Env
  flags : Flags
  currentBranch : String
  pkgName : String
  remoteName : String
  remoteHasBranch : Bool
  contentIdentical : Bool
  packedIsEmpty : Bool
  packToolFails : Bool
  tarballMissing : Bool
  pushRejected : Bool
  hookWrites : List Path
deriving DecidableEq, Repr

/-- Startup checks all pass (src/index.ts lines 61-79 and 112-117). -/
def startupOk (i : Input) : Bool :=
  i.env.isRepo && !i.env.dirtyTree && i.env.manifestFound
    && !(i.env.privatePkg && !i.flags.force) && i.env.remoteFound

/-- Branch-resolution outcome is orphan, src/index.ts lines 144-157:
fresh flag set, or the shallow fetch fails because the remote branch does
not exist. -/
def orphanMode (i : Input) : Bool := i.flags.fresh || !i.remoteHasBranch

/-- Tracked status is nonempty so a commit is made, src/index.ts lines
255-279: status can only be empty when HEAD is the fetched tip and the
packed content is identical to it. -/
def commitMade (i : Input) : Bool := !(!(orphanMode i) && i.contentIdentical)

/-- Repoint fetch succeeded and created the temporary local branch ref
(src/index.ts lines 148-156: fetch publishBranch into the temporary
branch name). -/
def repointFetched (i : Input) : Bool := !i.flags.fresh && i.remoteHasBranch

/-- Packing stage succeeds: the pack tool exits cleanly and a tarball is
found. -/
def packOk (i : Input) : Bool := !i.packToolFails && !i.tarballMissing

/-- Commit stage ran to completion and created a commit. -/
def commitExecuted (i : Input) : Bool := packOk i && !i.packedIsEmpty && commitMade i

/-- Temporary local branch ref exists when cleanup runs: either the
repoint fetch created it or a commit was made on the orphan; an orphan
checkout alone leaves the branch unborn, so git branch -D fails on it. -/
def branchRef (i : Input) : Bool := repointFetched i || commitExecuted i

/-- Sequencing of stages with JavaScript exception semantics: once a
stage fails, later stages never run and contribute no effects. -/
def andThen (a b : Except String Unit × List Eff) : Except String Unit × List Eff :=
  match a.1 with
  | .error e => (.error e, a.2)
  | .ok _ => (b.1, a.2 ++ b.2)

/-- try/finally with JavaScript exception semantics, src/index.ts lines
137 and 310-326: the finally block runs after the body on every path, and
an exception thrown inside finally replaces any pending body exception. -/
def tryFinally (body fin : Except String Unit × List Eff) : Except String Unit × List Eff :=
  (match fin.1 with
   | .error e => .error e
   | .ok _ => body.1,
   body.2 ++ fin.2)

/-- Checkout stage, src/index.ts lines 138-180: optional shallow fetch
(ref and object writes under .git on success, handled failure otherwise),
orphan checkout or symbolic-ref repoint (HEAD file under .git), index
clear (index file under .git), then deletion of every worktree file on
disk except .git. -/
def checkoutStage (l : Layout) (i : Input) : Except String Unit × List Eff :=
  (.ok (),
    (if i.flags.fresh then []
     else [.probe "git fetch --depth=1"]
       ++ (if i.remoteHasBranch then [.fsWrite l.gitDir] else []))
    ++ [.fsWrite l.gitDir, .fsWrite l.gitDir, .probe "readdir worktree",
        .fsRemove l.worktreePath])

/-- Effects of the packing task, src/index.ts lines 186-213: mkdir of the
pack destination (line 193), then the pack command spawned with
packCwd — the user's working directory, gitRootPath/gitSubdirectory or
cwd itself (line 201) — so the lifecycle hooks the pack tool runs write
relative to the user's working tree, and the tarball lands in the
destination (lines 196-202). -/
def packEffs (l : Layout) (hookWrites : List Path) : List Eff :=
  [.fsWrite l.packDest]
    ++ hookWrites.map (fun w => .fsWrite (l.gitRoot ++ l.subdir ++ w))
    ++ [.fsWrite l.packDest]

/-- Failure modes of the packing task, src/index.ts lines 202-213: the
pack tool exits nonzero, or the tarball under the deterministic name of
line 205 is absent and the extraction of line 209 throws. -/
def packResult (i : Input) : Except String Unit :=
  if i.packToolFails then .error "pack command failed"
  else if i.tarballMissing then .error "tarball missing, extraction failed"
  else .ok ()

/-- Packing task, src/index.ts lines 186-214: run the pack command in the
user's working directory with the temporary destination, then extract
the tarball into the publish worktree stripping the synthetic package/
prefix (lines 208-213). -/
def packStage (l : Layout) (i : Input) : Except String Unit × List Eff :=
  match packResult i with
  | .error e => (.error e, packEffs l i.hookWrites)
  | .ok _ => (.ok (), packEffs l i.hookWrites ++ [.fsWrite l.worktreePath])

/-- Commit stage, src/index.ts lines 220-286: stage everything (index
write under .git), list the staged files, fail when none, print sizes,
query tracked status and commit (object and ref writes under .git)
exactly when the status is nonempty. -/
def commitStage (l : Layout) (i : Input) : Except String Unit × List Eff :=
  if i.packedIsEmpty then
    (.error "No publish files found", [.fsWrite l.gitDir, .probe "git ls-files"])
  else
    (.ok (),
      [.fsWrite l.gitDir, .probe "git ls-files", .probe "git status --porcelain"]
        ++ (if commitMade i then [.fsWrite l.gitDir] else [])
        ++ [.probe "git rev-parse --short HEAD"])

/-- Push stage, src/index.ts lines 288-305: push HEAD to the target
branch on the remote, force exactly when fresh. -/
def pushStage (i : Input) : Except String Unit × List Eff :=
  (if i.pushRejected then .error "failed to push some refs" else .ok (),
   [.remotePush i.flags.fresh])

/-- Body of the try block, src/index.ts lines 137-309: checkout, pack,
commit, push in sequence. -/
def bodyRun (l : Layout) (i : Input) : Except String Unit × List Eff :=
  andThen (checkoutStage l i)
    (andThen (packStage l i) (andThen (commitStage l i) (pushStage i)))

/-- Cleanup, src/index.ts lines 310-326: remove the worktree (directory
deletion plus .git bookkeeping), delete the temporary branch, remove the
pack destination directory. When the temporary branch ref does not exist
(unborn orphan), git branch -D throws, so the staging-directory removal
never runs and the cleanup task itself fails. -/
def cleanupStage (l : Layout) (i : Input) : Except String Unit × List Eff :=
  if branchRef i then
    (.ok (), [.fsRemove l.worktreePath, .fsWrite l.gitDir, .fsWrite l.gitDir,
              .fsRemove l.packDest])
  else
    (.error "branch not found in cleanup", [.fsRemove l.worktreePath, .fsWrite l.gitDir])

/-- Result of one whole publish invocation. -/
structure RunResult where
  result : Except String Unit
  trace : List Eff
  derivedBranch : Option String
deriving Repr

/-- Orchestration of src/index.ts lines 61-352: preflight checks in
source order (clean tree via src/utils/git.ts lines 8-20, manifest
presence, private guard, remote resolution), derived branch name, package
manager detection, worktree creation, then the try body and the
unconditional finally cleanup. In dry mode every task body returns before
its first mutation (lines 123-126, 139-142, 187-190, 221-224, 291-294,
312-315) so only the probes run. -/
def mainRun (l : Layout) (i : Input) : RunResult :=
  let t0 : List Eff := [.probe "git status --porcelain --untracked-files=no"]
  if !i.env.isRepo then
    { result := .error "Not in a git repository.", trace := t0, derivedBranch := none }
  else if i.env.dirtyTree then
    { result := .error "The working tree is not clean. Please commit or stash your changes before publishing."
      trace := t0, derivedBranch := none }
  else
    let t1 := t0 ++ [.probe "git rev-parse --show-toplevel", .probe "git branch --show-current",
      .probe "git rev-parse --short HEAD", .probe "fs.access package.json"]
    if !i.env.manifestFound then
      { result := .error "No package.json found in current working directory."
        trace := t1, derivedBranch := none }
    else if i.env.privatePkg && !i.flags.force then
      { result := .error "This package is marked as private. Use --force to publish it anyway."
        trace := t1, derivedBranch := none }
    else
      let derived := derivePublishBranch i.flags.branchFlag i.currentBranch
        (String.intercalate "/" l.subdir) i.pkgName
      let t2 := t1 ++ [.probe "git remote get-url"]
      if !i.env.remoteFound then
        { result := .error ("Git remote " ++ i.remoteName ++ " does not exist")
          trace := t2, derivedBranch := some derived }
      else
        let t3 := t2 ++ [.probe "findUp lockfiles"]
        if i.flags.dry then
          { result := .ok (), trace := t3, derivedBranch := some derived }
        else
          let t4 := t3 ++ [.fsWrite l.worktreePath, .fsWrite l.gitDir]
          let finRun := tryFinally (bodyRun l i) (cleanupStage l i)
          { result := finRun.1, trace := t4 ++ finRun.2, derivedBranch := some derived }

/-! ## Frame reasoning over the effect trace -/

theorem tryFinally_trace (a b : Except String Unit × List Eff) :
    (tryFinally a b).2 = a.2 ++ b.2 := rfl

/-- State of the filesystem: file path to file bytes, none when absent. -/
abbrev FS := Path → Option String

/-- Havoc semantics of one effect on the filesystem: a write may put
arbitrary content at any path under its root, a removal deletes
everything under its root; probes and pushes change nothing. -/
def applyEff (f : Path → Option String) : Eff → FS → FS
  | .fsWrite r, fs => fun q => if r.isPrefixOf q then f q else fs q
  | .fsRemove r, fs => fun q => if r.isPrefixOf q then none else fs q
  | .probe _, fs => fs
  | .remotePush _, fs => fs

/-- Filesystem after a trace of effects. -/
def applyTrace (f : Path → Option String) (effs : List Eff) (fs : FS) : FS :=
  effs.foldl (fun s e => applyEff f e s) fs

/-- Concrete layout used by closed instantiations. -/
def layoutW : Layout :=
  { tmpRoot := ["tmp"], gitRoot := ["home", "u", "proj"], subdir := []
    runId := "git-publish-1-2" }

/-- Concrete successful non-fresh publish invocation. -/
def inputW : Input :=
  { env := { isRepo := true, dirtyTree := false, manifestFound := true
             privatePkg := false, remoteFound := true }
    flags := { branchFlag := none, fresh := false, dry := false, force := false }
    currentBranch := "main", pkgName := "pkg", remoteName := "origin"
    remoteHasBranch := true, contentIdentical := false, packedIsEmpty := false
    packToolFails := false, tarballMissing := false, pushRejected := false
    hookWrites := [["dist", "out.js"]] }

/-- The repository's own isolation-test input: a manifest whose prepack
hook writes prepack-created-file.txt relative to the pack working
directory. -/
def inputHook : Input :=
  { inputW with hookWrites := [["prepack-created-file.txt"]] }

/-- C1: evaluation of the code at the failing input. The packing task of
src/index.ts lines 186-214 spawns the pack tool with the user's working
directory as its working directory (line 201), so the prepack hook's
relative write of prepack-created-file.txt targets the user's working
tree: the write effect is in the run's trace, its target lies under the
repository root but outside .git and outside every temporary directory,
and after the run the file exists in the user's working directory where
nothing existed before — a new untracked file remains and a lifecycle
hook has mutated a file outside the disposable pack machinery, against
the claimed isolation, the repository's own isolation test and its
design document's stated guarantee. -/
theorem pack_hook_escapes_user_tree :
    Eff.fsWrite (layoutW.gitRoot ++ layoutW.subdir ++ ["prepack-created-file.txt"])
      ∈ (mainRun layoutW inputHook).trace
    ∧ layoutW.gitRoot <+: layoutW.gitRoot ++ layoutW.subdir ++ ["prepack-created-file.txt"]
    ∧ ¬ layoutW.gitDir <+: layoutW.gitRoot ++ layoutW.subdir ++ ["prepack-created-file.txt"]
    ∧ ¬ layoutW.tmpRoot <+: layoutW.gitRoot ++ layoutW.subdir ++ ["prepack-created-file.txt"]
    ∧ applyTrace (fun _ => some "hook-ran") (mainRun layoutW inputHook).trace
        (fun _ => none) (layoutW.gitRoot ++ layoutW.subdir ++ ["prepack-created-file.txt"])
      = some "hook-ran" := by
  refine ⟨by decide, by decide, by decide, by decide, by decide⟩


/-- Startup probe effects shared by every run that reaches worktree
creation. -/
def startupProbes : List Eff :=
  [.probe "git status --porcelain --untracked-files=no",
   .probe "git rev-parse --show-toplevel", .probe "git branch --show-current",
   .probe "git rev-parse --short HEAD", .probe "fs.access package.json",
   .probe "git remote get-url", .probe "findUp lockfiles"]

theorem mainRun_eq_of_startup (l : Layout) (i : Input)
    (hok : startupOk i = true) (hd : i.flags.dry = false) :
    (mainRun l i).result = (tryFinally (bodyRun l i) (cleanupStage l i)).1
    ∧ (mainRun l i).trace
      = startupProbes ++ [.fsWrite l.worktreePath, .fsWrite l.gitDir]
          ++ ((bodyRun l i).2 ++ (cleanupStage l i).2) := by
  simp only [startupOk, Bool.and_eq_true, Bool.not_eq_true'] at hok
  obtain ⟨⟨⟨⟨hrepo, hdirty⟩, hman⟩, hpriv⟩, hrem⟩ := hok
  simp [mainRun, hrepo, hdirty, hman, hpriv, hrem, hd, tryFinally_trace, startupProbes]

theorem cleanup_removes_worktree (l : Layout) (i : Input) :
    Eff.fsRemove l.worktreePath ∈ (cleanupStage l i).2 := by
  unfold cleanupStage
  split <;> simp

/-- C6 counterexample: a run in which the pack stage fails inside an
orphan-mode publish (fresh flag, pack tool error) ends with the cleanup
task's own branch-deletion error instead of the pack error — the first
failure is masked — and the staging directory removal never happens. -/
theorem cleanup_mask_cex :
    (mainRun layoutW
      { inputW with flags := { branchFlag := none, fresh := true, dry := false, force := false }
                    packToolFails := true }).result = .error "branch not found in cleanup"
    ∧ (bodyRun layoutW
      { inputW with flags := { branchFlag := none, fresh := true, dry := false, force := false }
                    packToolFails := true }).1 = .error "pack command failed"
    ∧ Eff.fsRemove layoutW.packDest ∉ (mainRun layoutW
      { inputW with flags := { branchFlag := none, fresh := true, dry := false, force := false }
                    packToolFails := true }).trace := by
  refine ⟨rfl, rfl, ?_⟩
  decide

/-- C6 amended: on every invocation that passes startup and is not dry,
cleanup runs no matter which try-block stage failed and always removes
the temporary worktree; when the temporary branch ref exists (repoint
fetch succeeded or a commit was created) cleanup also deletes the branch
and the staging directory and the run surfaces the body's own first
error; when the branch is unborn, the branch deletion inside cleanup
throws, skipping the staging-directory removal and replacing the body's
error with the cleanup error. -/
theorem cleanup_always_runs (l : Layout) (i : Input)
    (hok : startupOk i = true) (hd : i.flags.dry = false) :
    Eff.fsRemove l.worktreePath ∈ (mainRun l i).trace
    ∧ (branchRef i = true →
        (mainRun l i).result = (bodyRun l i).1
        ∧ Eff.fsRemove l.packDest ∈ (mainRun l i).trace)
    ∧ (branchRef i = false →
        (mainRun l i).result = .error "branch not found in cleanup") := by
  obtain ⟨hres, htr⟩ := mainRun_eq_of_startup l i hok hd
  refine ⟨?_, fun hb => ⟨?_, ?_⟩, fun hb => ?_⟩
  · rw [htr]
    exact List.mem_append.mpr (Or.inr (List.mem_append.mpr (Or.inr
      (cleanup_removes_worktree l i))))
  · rw [hres]
    unfold tryFinally cleanupStage
    simp [hb]
  · rw [htr]
    refine List.mem_append.mpr (Or.inr (List.mem_append.mpr (Or.inr ?_)))
    unfold cleanupStage
    simp [hb]
  · rw [hres]
    unfold tryFinally cleanupStage
    simp [hb]

/-- C6 amended witness: a concrete successful repoint run removes the
worktree and the staging directory and surfaces the body result. -/
theorem cleanup_always_runs_witness :
    Eff.fsRemove layoutW.worktreePath ∈ (mainRun layoutW inputW).trace
    ∧ (branchRef inputW = true →
        (mainRun layoutW inputW).result = (bodyRun layoutW inputW).1
        ∧ Eff.fsRemove layoutW.packDest ∈ (mainRun layoutW inputW).trace)
    ∧ (branchRef inputW = false →
        (mainRun layoutW inputW).result = .error "branch not found in cleanup") :=
  cleanup_always_runs layoutW inputW (by decide) (by decide)

/-- C9: with the dry flag set no mutating effect occurs anywhere in the
run — no worktree creation, no fetch, no branch creation, no index
mutation, no commit and no push — while the read-only probes still run
when the startup checks pass: the clean-tree check, the remote-URL
resolution and the package-manager detection appear in the trace, the
target branch name is still derived, and the run succeeds. -/
theorem dry_run_no_mutation (l : Layout) (i : Input) (hd : i.flags.dry = true) :
    (∀ e ∈ (mainRun l i).trace, e.isMutation = false)
    ∧ (startupOk i = true →
        (mainRun l i).result = .ok ()
        ∧ (mainRun l i).derivedBranch = some (derivePublishBranch i.flags.branchFlag
            i.currentBranch (String.intercalate "/" l.subdir) i.pkgName)
        ∧ Eff.probe "git status --porcelain --untracked-files=no" ∈ (mainRun l i).trace
        ∧ Eff.probe "git remote get-url" ∈ (mainRun l i).trace
        ∧ Eff.probe "findUp lockfiles" ∈ (mainRun l i).trace) := by
  constructor
  · intro e he
    unfold mainRun at he
    split at he
    · simp only [List.mem_singleton] at he
      subst he
      rfl
    split at he
    · simp only [List.mem_singleton] at he
      subst he
      rfl
    split at he
    · simp only [List.singleton_append, List.cons_append, List.nil_append, List.mem_cons,
        List.not_mem_nil, or_false] at he
      rcases he with rfl | rfl | rfl | rfl | rfl <;> rfl
    split at he
    · simp only [List.singleton_append, List.cons_append, List.nil_append, List.mem_cons,
        List.not_mem_nil, or_false] at he
      rcases he with rfl | rfl | rfl | rfl | rfl <;> rfl
    split at he
    · simp only [List.singleton_append, List.cons_append, List.nil_append, List.mem_cons,
        List.not_mem_nil, or_false] at he
      rcases he with rfl | rfl | rfl | rfl | rfl | rfl <;> rfl
    · simp only [hd, if_true, List.singleton_append, List.cons_append, List.nil_append,
        List.mem_cons, List.not_mem_nil, or_false] at he
      rcases he with rfl | rfl | rfl | rfl | rfl | rfl | rfl <;> rfl
  · intro hok
    simp only [startupOk, Bool.and_eq_true, Bool.not_eq_true'] at hok
    obtain ⟨⟨⟨⟨hrepo, hdirty⟩, hman⟩, hpriv⟩, hrem⟩ := hok
    simp [mainRun, hrepo, hdirty, hman, hpriv, hrem, hd]

/-- C9 witness: a concrete dry run mutates nothing, succeeds, derives the
branch name and still performs the probes. -/
theorem dry_run_no_mutation_witness :
    (∀ e ∈ (mainRun layoutW { inputW with
        flags := { branchFlag := none, fresh := false, dry := true, force := false } }).trace,
      e.isMutation = false)
    ∧ (startupOk { inputW with
        flags := { branchFlag := none, fresh := false, dry := true, force := false } } = true →
        (mainRun layoutW { inputW with
          flags := { branchFlag := none, fresh := false, dry := true, force := false } }).result = .ok ()
        ∧ (mainRun layoutW { inputW with
            flags := { branchFlag := none, fresh := false, dry := true, force := false } }).derivedBranch
          = some (derivePublishBranch none "main" (String.intercalate "/" layoutW.subdir) "pkg")
        ∧ Eff.probe "git status --porcelain --untracked-files=no" ∈ (mainRun layoutW { inputW with
            flags := { branchFlag := none, fresh := false, dry := true, force := false } }).trace
        ∧ Eff.probe "git remote get-url" ∈ (mainRun layoutW { inputW with
            flags := { branchFlag := none, fresh := false, dry := true, force := false } }).trace
        ∧ Eff.probe "findUp lockfiles" ∈ (mainRun layoutW { inputW with
            flags := { branchFlag := none, fresh := false, dry := true, force := false } }).trace) :=
  dry_run_no_mutation layoutW { inputW with
    flags := { branchFlag := none, fresh := false, dry := true, force := false } } (by decide)

/-- C10: the startup checks run in source order — clean-tree (with its
not-a-repository failure mode) first, then manifest existence, then the
private-package guard, then remote resolution — the first violated check
fixes the reported error whatever the later checks would say, and every
run that fails a startup check performs no mutating effect at all: no
worktree, no temporary branch and no staging directory exist yet. -/
theorem startup_check_order (l : Layout) (i : Input) :
    (i.env.isRepo = false → (mainRun l i).result = .error "Not in a git repository.")
    ∧ (i.env.isRepo = true → i.env.dirtyTree = true →
        (mainRun l i).result = .error "The working tree is not clean. Please commit or stash your changes before publishing.")
    ∧ (i.env.isRepo = true → i.env.dirtyTree = false → i.env.manifestFound = false →
        (mainRun l i).result = .error "No package.json found in current working directory.")
    ∧ (i.env.isRepo = true → i.env.dirtyTree = false → i.env.manifestFound = true →
        (i.env.privatePkg && !i.flags.force) = true →
        (mainRun l i).result = .error "This package is marked as private. Use --force to publish it anyway.")
    ∧ (i.env.isRepo = true → i.env.dirtyTree = false → i.env.manifestFound = true →
        (i.env.privatePkg && !i.flags.force) = false → i.env.remoteFound = false →
        (mainRun l i).result = .error ("Git remote " ++ i.remoteName ++ " does not exist"))
    ∧ (startupOk i = false → ∀ e ∈ (mainRun l i).trace, e.isMutation = false) := by
  refine ⟨fun h1 => ?_, fun h1 h2 => ?_, fun h1 h2 h3 => ?_,
    fun h1 h2 h3 h4 => ?_, fun h1 h2 h3 h4 h5 => ?_, fun hok => ?_⟩
  · simp [mainRun, h1]
  · simp [mainRun, h1, h2]
  · simp [mainRun, h1, h2, h3]
  · simp [mainRun, h1, h2, h3, h4]
  · simp [mainRun, h1, h2, h3, h4, h5]
  · intro e he
    unfold mainRun at he
    split at he
    · simp only [List.mem_singleton] at he
      subst he
      rfl
    split at he
    · simp only [List.mem_singleton] at he
      subst he
      rfl
    split at he
    · simp only [List.singleton_append, List.cons_append, List.nil_append, List.mem_cons,
        List.not_mem_nil, or_false] at he
      rcases he with rfl | rfl | rfl | rfl | rfl <;> rfl
    split at he
    · simp only [List.singleton_append, List.cons_append, List.nil_append, List.mem_cons,
        List.not_mem_nil, or_false] at he
      rcases he with rfl | rfl | rfl | rfl | rfl <;> rfl
    split at he
    · simp only [List.singleton_append, List.cons_append, List.nil_append, List.mem_cons,
        List.not_mem_nil, or_false] at he
      rcases he with rfl | rfl | rfl | rfl | rfl | rfl <;> rfl
    · simp_all [startupOk]

end GitPublish
